import Mathlib

/-
Verification development for the photo-collage service (src/main.py).

The constants, data model and operations below are a shallow embedding of
the Python source: timestamps are integer seconds (datetime values at the
second granularity the code relies on), file names and paths are lists of
characters, the PIL canvas is abstracted to the list of placement
rectangles the code computes, and the two external effects that can fail
(decoding an uploaded file with Image.open, writing the collage with
collage.save) are modelled by a decode predicate and a save flag; a Python
exception arising from either is an Except.error value.
-/

/-- Allowed upload extensions, from ALLOWED_EXTENSIONS in main.py
(a set of lowercase extension strings). -/
def ALLOWED_EXTENSIONS : List (List Char) :=
  [['p', 'n', 'g'], ['j', 'p', 'g'], ['j', 'p', 'e', 'g'], ['g', 'i', 'f']]

/-- A4_SIZE = (2480, 3508), pixels at 300 DPI. -/
def A4_SIZE : Nat × Nat := (2480, 3508)

/-- Canvas width in pixels. -/
def A4_W : Nat := A4_SIZE.1

/-- Canvas height in pixels. -/
def A4_H : Nat := A4_SIZE.2

/-- COLLAGE_INTERVAL = 60 seconds between collages. -/
def COLLAGE_INTERVAL : Int := 60

/-- The substring after the last dot of a file name, when the name
contains a dot: the embedding of Python `filename.rsplit(. , 1)[1]`
guarded by `. in filename`. -/
def extAfterLastDot : List Char → Option (List Char)
  | [] => none
  | c :: cs =>
    match extAfterLastDot cs with
    | some e => some e
    | none => if c = '.' then some cs else none

/-- allowed_file from main.py: the name must contain a dot and the part
after the last dot, lowercased, must be an allowed extension. -/
def allowed_file (filename : List Char) : Bool :=
  match extAfterLastDot filename with
  | none => false
  | some e => ALLOWED_EXTENSIONS.contains (e.map Char.toLower)

/-- os.path.basename for the forward-slash paths built by main.py:
the part of the path after the last slash. -/
def basename : List Char → List Char
  | [] => []
  | c :: cs => if cs.contains '/' then basename cs else if c = '/' then cs else c :: cs

/-- One record of the uploaded_images list: the stored file path and the
timestamp recorded at upload time (seconds). -/
structure ImageRec where
  path : List Char
  timestamp : Int
deriving DecidableEq

/-- The windowed read performed at the start of create_dynamic_collage
(lines 49-53): all entries whose age at `now` is at most the interval,
in insertion order. -/
def windowOf (now : Int) (imgs : List ImageRec) : List ImageRec :=
  imgs.filter (fun img => decide (now - img.timestamp ≤ COLLAGE_INTERVAL))

/-- The cleanup performed by collage_scheduler after each cycle
(lines 171-175): keep exactly the entries whose age at `now` is at most
the interval, in insertion order. -/
def pruneStore (now : Int) (imgs : List ImageRec) : List ImageRec :=
  imgs.filter (fun img => decide (now - img.timestamp ≤ COLLAGE_INTERVAL))

/-- An axis-aligned placement rectangle on the canvas, in pixels. -/
structure Rect where
  x : Nat
  y : Nat
  w : Nat
  h : Nat
deriving DecidableEq

/-- Helper for gridSize: the first j at or above k with n ≤ j * j,
searched with explicit fuel so that it evaluates by reduction. -/
def gridSizeFrom (n : Nat) : Nat → Nat → Nat
  | k, 0 => k
  | k, fuel + 1 => if n ≤ k * k then k else gridSizeFrom n (k + 1) fuel

/-- grid_size = int(np.ceil(np.sqrt(num_images))): the ceiling of the
square root of the image count, i.e. the least k with n ≤ k * k. -/
def gridSize (n : Nat) : Nat := gridSizeFrom n 0 (n + 1)

/-- The cell assigned to the i-th image in the grid branch of
create_dynamic_collage: row = i / g, col = i % g, cell width
A4_W / g and height A4_H / g (integer division). -/
def gridCell (g i : Nat) : Rect :=
  ⟨(i % g) * (A4_W / g), (i / g) * (A4_H / g), A4_W / g, A4_H / g⟩

/-- The placement rectangles create_dynamic_collage pastes into, by image
count: the four layout branches of lines 79-139 of main.py. -/
def layoutRects (n : Nat) : List Rect :=
  if n = 0 then []
  else if n = 1 then [⟨0, 0, A4_W, A4_H⟩]
  else if n = 2 then
    [⟨0, 0, A4_W / 2, A4_H⟩,
     ⟨A4_W / 2, 0, A4_W - A4_W / 2, A4_H⟩]
  else if n = 3 then
    [⟨0, 0, A4_W / 2, A4_H * 2 / 3⟩,
     ⟨A4_W / 2, 0, A4_W - A4_W / 2, A4_H * 2 / 3⟩,
     ⟨0, A4_H * 2 / 3, A4_W, A4_H - A4_H * 2 / 3⟩]
  else (List.range n).map (gridCell (gridSize n))

/-- Membership of a pixel in a rectangle. -/
def Rect.memPt (r : Rect) (p q : Nat) : Prop :=
  r.x ≤ p ∧ p < r.x + r.w ∧ r.y ≤ q ∧ q < r.y + r.h

/-- Two rectangles share no pixel. -/
def RectDisjoint (r1 r2 : Rect) : Prop :=
  ∀ p q, ¬(r1.memPt p q ∧ r2.memPt p q)

/-- A persisted collage file name. The code derives it from
datetime.now() as collage_YYYYMMDD_HHMMSS.jpg; at the second granularity
of that pattern the name is determined by the creation time, which is
what this wrapper records. -/
structure CollageFile where
  stamp : Int
deriving DecidableEq

/-- The file name derived from the time of the cycle. -/
def collageFilename (now : Int) : CollageFile := ⟨now⟩

/-- The new_collage Socket.IO event payload: the collage file name and
the basenames of the images reported with it. -/
structure CollageEvent where
  filename : CollageFile
  uploaded_images : List (List Char)
deriving DecidableEq

/-- The process-wide mutable state of main.py: the uploaded_images list,
last_collage_time and recent_collage (lines 30-32). -/
structure AppState where
  uploadedImages : List ImageRec
  lastCollageTime : Int
  recentCollage : Option CollageFile
deriving DecidableEq

/-- The module-load state: empty store, last_collage_time set to the
process start time, no collage yet. -/
def initialAppState (t0 : Int) : AppState := ⟨[], t0, none⟩

/-- The two exceptions a cycle can raise: PIL.Image.open failing on a
stored file, or collage.save failing to write the collage. -/
inductive CycleError
  | decodeFailure (path : List Char)
  | saveFailure
deriving DecidableEq

/-- The sequence of Image.open calls the layout branches perform, in
placement order: the first unreadable file raises, aborting the rest. -/
def openAll (ok : List Char → Bool) : List ImageRec → Except (List Char) Unit
  | [] => .ok ()
  | img :: rest => if ok img.path then openAll ok rest else .error img.path

/-- The first stored path in the list that fails to decode, if any:
the file at which the sequence of Image.open calls raises. -/
def firstBad (ok : List Char → Bool) (l : List ImageRec) : Option (List Char) :=
  (l.find? (fun img => !(ok img.path))).map ImageRec.path

/-- Result of one create_dynamic_collage call: the updated globals, the
emitted new_collage event, and the (path, rectangle) placements of the
composed canvas. -/
abbrev CycleResult :=
  Except CycleError (AppState × CollageEvent × List (List Char × Rect))

/-- create_dynamic_collage (lines 41-156): filter the window, compose
(blank canvas when the window is empty), save, update the two globals,
emit the new_collage event. `ok` tells which stored files decode
successfully; `saveOk` tells whether collage.save succeeds. Any failure
raises out of the function before the remaining steps run. -/
def create_dynamic_collage (now : Int) (ok : List Char → Bool) (saveOk : Bool)
    (s : AppState) : CycleResult :=
  if (windowOf now s.uploadedImages).isEmpty then
    if saveOk then
      .ok ({ s with lastCollageTime := now, recentCollage := some (collageFilename now) },
           ⟨collageFilename now, []⟩, [])
    else .error .saveFailure
  else
    match openAll ok (windowOf now s.uploadedImages) with
    | .error p => .error (.decodeFailure p)
    | .ok _ =>
      if saveOk then
        .ok ({ s with lastCollageTime := now, recentCollage := some (collageFilename now) },
             ⟨collageFilename now, s.uploadedImages.map (fun i => basename i.path)⟩,
             ((windowOf now s.uploadedImages).map ImageRec.path).zip
               (layoutRects (windowOf now s.uploadedImages).length))
      else .error .saveFailure

/-- The event emitted by a cycle, when the cycle completed. -/
def eventOf (r : CycleResult) : Option CollageEvent :=
  match r with
  | .ok (_, ev, _) => some ev
  | .error _ => none

/-- The globals after a cycle, when the cycle completed. -/
def stateOf (r : CycleResult) : Option AppState :=
  match r with
  | .ok (s, _, _) => some s
  | .error _ => none

/-- The placements of the collage of a cycle, when the cycle completed. -/
def placementsOf (r : CycleResult) : Option (List (List Char × Rect)) :=
  match r with
  | .ok (_, _, pl) => some pl
  | .error _ => none

/-- The exception a cycle raised, if any. -/
def errorOf (r : CycleResult) : Option CycleError :=
  match r with
  | .ok _ => none
  | .error e => some e

/-- The state of the scheduler thread: the shared globals, whether the thread
is still running (an uncaught exception in the loop body terminates the
daemon thread), and the log of collages it has produced. -/
structure SchedState where
  app : AppState
  alive : Bool
  collageLog : List (CollageEvent × List (List Char × Rect))
deriving DecidableEq

/-- One iteration of the collage_scheduler loop body (lines 164-175),
after the sleep: run create_dynamic_collage at time nowC, then prune at
time nowP (the loop recomputes datetime.now() for the cleanup).
midAppends are the uploads that land between the window read of the cycle and
the prune; a raised exception leaves the loop and kills the thread, so a
dead scheduler never acts again. -/
def schedulerStep (nowC nowP : Int) (ok : List Char → Bool) (saveOk : Bool)
    (midAppends : List ImageRec) (st : SchedState) : SchedState :=
  if st.alive then
    match create_dynamic_collage nowC ok saveOk st.app with
    | .error _ => { st with alive := false }
    | .ok (app, ev, pl) =>
        { app := { app with uploadedImages := pruneStore nowP (app.uploadedImages ++ midAppends) },
          alive := true,
          collageLog := st.collageLog ++ [(ev, pl)] }
  else st

/-- The instants at which collage_scheduler starts its cycles:
the loop body is time.sleep(COLLAGE_INTERVAL) followed by the cycle, so
with process start `startTime` and `d n` the duration of the n-th cycle,
cycle n starts at startTime plus n+1 sleeps plus the earlier cycles. -/
def tickTimes (startTime : Int) (d : Nat → Int) : Nat → Int
  | 0 => startTime + COLLAGE_INTERVAL
  | n + 1 => tickTimes startTime d n + d n + COLLAGE_INTERVAL

/-- The responses of the /upload route (lines 193-224): three client
visible errors and the success response carrying the stored name. -/
inductive UploadResponse
  | errNoFilePart
  | errNoSelectedFile
  | errNotAllowed
  | uploaded (filename : List Char)
deriving DecidableEq

/-- upload_file from main.py: reject a missing file part, an empty file
name, or a disallowed extension; otherwise store the file under a fresh
name and append the record to uploaded_images. `storedName` stands for
the uuid-based name the code generates. Returns the response and the
store after the request. -/
def upload_file (hasFilePart : Bool) (origName storedName : List Char) (now : Int)
    (store : List ImageRec) : UploadResponse × List ImageRec :=
  if hasFilePart = false then (.errNoFilePart, store)
  else if origName = [] then (.errNoSelectedFile, store)
  else if allowed_file origName then
    (.uploaded storedName,
     store ++ [⟨('u' :: 'p' :: 'l' :: 'o' :: 'a' :: 'd' :: 's' :: '/' :: storedName), now⟩])
  else (.errNotAllowed, store)

/-- The initial_state payload sent to a newly connected client
(lines 227-234). -/
structure InitialStatePayload where
  uploaded_images : List (List Char)
  recent_collage : Option CollageFile
  remaining_time : Int
deriving DecidableEq

/-- handle_connect from main.py: basenames of every tracked image, the
most recent collage (None before the first cycle), and the clamped
seconds remaining until the next tick. -/
def handle_connect (now : Int) (s : AppState) : InitialStatePayload :=
  { uploaded_images := s.uploadedImages.map (fun i => basename i.path),
    recent_collage := s.recentCollage,
    remaining_time := max 0 (COLLAGE_INTERVAL - (now - s.lastCollageTime)) }

/-- A decode predicate under which every stored file opens. -/
def okAll : List Char → Bool := fun _ => true

/-- A decode predicate under which exactly one path fails to open. -/
def okExcept (bad : List Char) : List Char → Bool := fun p => !(p == bad)

/-- Concrete store entries used to evaluate the model. -/
def imgA : ImageRec := ⟨"uploads/a.png".toList, 0⟩

/-- Second concrete entry. -/
def imgB : ImageRec := ⟨"uploads/b.png".toList, 0⟩

/-- Third concrete entry. -/
def imgC : ImageRec := ⟨"uploads/c.png".toList, 0⟩

/-- A scheduler state holding three fresh uploads. -/
def stThree : SchedState := ⟨⟨[imgA, imgB, imgC], 0, none⟩, true, []⟩

/-- A scheduler state holding one fresh upload. -/
def stOne : SchedState := ⟨⟨[imgA], 0, none⟩, true, []⟩

/-- An entry whose age is exactly the interval at time 120. -/
def imgBound : ImageRec := ⟨"uploads/a.png".toList, 60⟩

/-- A scheduler state holding only the boundary-aged entry. -/
def stBound : SchedState := ⟨⟨[imgBound], 0, none⟩, true, []⟩

/-- A store whose only entry is older than the interval at time 100. -/
def sOld : AppState := ⟨[⟨"uploads/old.png".toList, 0⟩], 0, none⟩

/-! Helper lemmas about the grid sizing and the layout geometry. -/

theorem gridSizeFrom_spec (n fuel k t : Nat) (h1 : k ≤ t) (h2 : t ≤ k + fuel)
    (hmin : ∀ j, k ≤ j → j < t → ¬ n ≤ j * j) (ht : n ≤ t * t) :
    gridSizeFrom n k fuel = t := by
  induction fuel generalizing k with
  | zero =>
    have hkt : t = k := by omega
    simp [gridSizeFrom, hkt]
  | succ f ih =>
    by_cases hk : n ≤ k * k
    · have hkt : t = k := by
        by_contra hne
        exact absurd hk (hmin k le_rfl (by omega))
      simp [gridSizeFrom, hk, hkt]
    · have hkt : k < t := by
        rcases Nat.eq_or_lt_of_le h1 with he | hlt
        · exact absurd (he ▸ ht) hk
        · exact hlt
      have hrec := ih (k + 1) hkt (by omega) (fun j hj1 hj2 => hmin j (by omega) hj2)
      simp [gridSizeFrom, hk, hrec]

theorem gridSize_eq_ceil (n : Nat) :
    gridSize n = if Nat.sqrt n * Nat.sqrt n = n then Nat.sqrt n else Nat.sqrt n + 1 := by
  unfold gridSize
  split
  · next hp =>
    refine gridSizeFrom_spec n (n + 1) 0 (Nat.sqrt n) (Nat.zero_le _)
      (by have := Nat.sqrt_le_self n; omega) (fun j _ hj => ?_) (hp.ge)
    intro hnj
    have hjj : j * j < Nat.sqrt n * Nat.sqrt n := Nat.mul_self_lt_mul_self hj
    exact absurd (Nat.lt_of_le_of_lt hnj (hp ▸ hjj)) (Nat.lt_irrefl n)
  · next hp =>
    refine gridSizeFrom_spec n (n + 1) 0 (Nat.sqrt n + 1) (Nat.zero_le _)
      (by have := Nat.sqrt_le_self n; omega) (fun j _ hj => ?_)
      (by simpa [Nat.succ_eq_add_one] using Nat.le_of_lt (Nat.lt_succ_sqrt n))
    intro hnj
    have hle : j ≤ Nat.sqrt n := by omega
    have hj1 : j * j ≤ Nat.sqrt n * Nat.sqrt n := Nat.mul_self_le_mul_self hle
    have hj2 : Nat.sqrt n * Nat.sqrt n ≤ n := Nat.sqrt_le n
    exact hp (Nat.le_antisymm hj2 (Nat.le_trans hnj hj1))

theorem le_gridSize_sq (n : Nat) : n ≤ gridSize n * gridSize n := by
  rw [gridSize_eq_ceil]
  split
  · next hp => exact hp.ge
  · next => exact Nat.le_of_lt (by simpa [Nat.succ_eq_add_one] using Nat.lt_succ_sqrt n)

theorem gridSize_pos (n : Nat) (h : 1 ≤ n) : 0 < gridSize n := by
  have hle := le_gridSize_sq n
  rcases Nat.eq_zero_or_pos (gridSize n) with h0 | h1
  · rw [h0] at hle
    simp at hle
    omega
  · exact h1

theorem disjoint_of_x_le (r1 r2 : Rect) (h : r1.x + r1.w ≤ r2.x) : RectDisjoint r1 r2 := by
  intro p q hpq
  simp only [Rect.memPt] at hpq
  omega

theorem disjoint_of_y_le (r1 r2 : Rect) (h : r1.y + r1.h ≤ r2.y) : RectDisjoint r1 r2 := by
  intro p q hpq
  simp only [Rect.memPt] at hpq
  omega

theorem gridCell_disjoint (g i j : Nat) (hij : i ≠ j) :
    RectDisjoint (gridCell g i) (gridCell g j) := by
  intro p q hpq
  simp only [Rect.memPt, gridCell] at hpq
  obtain ⟨⟨a1, a2, a3, a4⟩, b1, b2, b3, b4⟩ := hpq
  have hc : i % g = j % g := by
    have e1 : (j % g) * (A4_W / g) + A4_W / g = (j % g + 1) * (A4_W / g) := by ring
    have e2 : (i % g) * (A4_W / g) + A4_W / g = (i % g + 1) * (A4_W / g) := by ring
    have hlt1 : (i % g) * (A4_W / g) < (j % g + 1) * (A4_W / g) :=
      Nat.lt_of_le_of_lt a1 (e1 ▸ b2)
    have hlt2 : (j % g) * (A4_W / g) < (i % g + 1) * (A4_W / g) :=
      Nat.lt_of_le_of_lt b1 (e2 ▸ a2)
    have h1 : i % g < j % g + 1 := lt_of_mul_lt_mul_right hlt1 (Nat.zero_le _)
    have h2 : j % g < i % g + 1 := lt_of_mul_lt_mul_right hlt2 (Nat.zero_le _)
    omega
  have hr : i / g = j / g := by
    have e1 : (j / g) * (A4_H / g) + A4_H / g = (j / g + 1) * (A4_H / g) := by ring
    have e2 : (i / g) * (A4_H / g) + A4_H / g = (i / g + 1) * (A4_H / g) := by ring
    have hlt1 : (i / g) * (A4_H / g) < (j / g + 1) * (A4_H / g) :=
      Nat.lt_of_le_of_lt a3 (e1 ▸ b4)
    have hlt2 : (j / g) * (A4_H / g) < (i / g + 1) * (A4_H / g) :=
      Nat.lt_of_le_of_lt b3 (e2 ▸ a4)
    have h1 : i / g < j / g + 1 := lt_of_mul_lt_mul_right hlt1 (Nat.zero_le _)
    have h2 : j / g < i / g + 1 := lt_of_mul_lt_mul_right hlt2 (Nat.zero_le _)
    omega
  have hi := Nat.div_add_mod i g
  have hj' := Nat.div_add_mod j g
  rw [hr, hc] at hi
  exact hij (hi.symm.trans hj')

theorem layoutRects_grid (m : Nat) :
    layoutRects (m + 4) = (List.range (m + 4)).map (gridCell (gridSize (m + 4))) := by
  unfold layoutRects
  rw [if_neg (by omega), if_neg (by omega), if_neg (by omega), if_neg (by omega)]

theorem layoutRects_length (n : Nat) : (layoutRects n).length = n := by
  obtain _ | _ | _ | _ | m := n
  · decide
  · decide
  · decide
  · decide
  · rw [show m + 1 + 1 + 1 + 1 = m + 4 from rfl, layoutRects_grid]
    simp

/-! Helper lemmas about composition, the cycle and the scheduler. -/

theorem openAll_ok (ok : List Char → Bool) (l : List ImageRec)
    (h : ∀ img ∈ l, ok img.path = true) : openAll ok l = .ok () := by
  induction l with
  | nil => rfl
  | cons a t ih =>
    simp only [openAll, h a (List.mem_cons_self a t), if_true]
    exact ih (fun i hi => h i (List.mem_cons_of_mem _ hi))

theorem firstBad_openAll (ok : List Char → Bool) (l : List ImageRec) (p : List Char)
    (h : firstBad ok l = some p) : ok p = false ∧ openAll ok l = .error p := by
  induction l with
  | nil => simp [firstBad] at h
  | cons a t ih =>
    rcases hb : ok a.path with hfalse | htrue
    · simp only [firstBad, List.find?_cons, hb, Bool.not_false, Option.map_some'] at h
      have hp : a.path = p := by injection h
      subst hp
      exact ⟨hb, by simp [openAll, hb]⟩
    · have ht : firstBad ok t = some p := by
        simpa only [firstBad, List.find?_cons, hb, Bool.not_true] using h
      obtain ⟨h1, h2⟩ := ih ht
      exact ⟨h1, by simp [openAll, hb, h2]⟩

theorem firstBad_mem (ok : List Char → Bool) (l : List ImageRec) (p : List Char)
    (h : firstBad ok l = some p) : ∃ img ∈ l, img.path = p := by
  simp only [firstBad, Option.map_eq_some'] at h
  obtain ⟨img, h1, h2⟩ := h
  exact ⟨img, List.mem_of_find?_eq_some h1, h2⟩

theorem create_ok (now : Int) (ok : List Char → Bool) (s : AppState)
    (hok : ∀ img ∈ windowOf now s.uploadedImages, ok img.path = true) :
    create_dynamic_collage now ok true s = .ok
      ({ s with lastCollageTime := now, recentCollage := some (collageFilename now) },
       ⟨collageFilename now,
        if (windowOf now s.uploadedImages).isEmpty then []
        else s.uploadedImages.map (fun i => basename i.path)⟩,
       ((windowOf now s.uploadedImages).map ImageRec.path).zip
         (layoutRects (windowOf now s.uploadedImages).length)) := by
  unfold create_dynamic_collage
  rcases he : (windowOf now s.uploadedImages).isEmpty with hfalse | htrue
  · rw [openAll_ok ok _ hok]
    simp [he]
  · rw [List.isEmpty_iff.mp he]
    simp

theorem create_save_fails (now : Int) (ok : List Char → Bool) (s : AppState)
    (hok : ∀ img ∈ windowOf now s.uploadedImages, ok img.path = true) :
    create_dynamic_collage now ok false s = .error .saveFailure := by
  unfold create_dynamic_collage
  rcases he : (windowOf now s.uploadedImages).isEmpty with hfalse | htrue
  · rw [openAll_ok ok _ hok]
    simp [he]
  · simp [he]

theorem create_decode_fails (now : Int) (ok : List Char → Bool) (saveOk : Bool)
    (s : AppState) (p : List Char)
    (h : firstBad ok (windowOf now s.uploadedImages) = some p) :
    ok p = false ∧
      create_dynamic_collage now ok saveOk s = .error (.decodeFailure p) := by
  obtain ⟨h1, h2⟩ := firstBad_openAll ok _ p h
  obtain ⟨img, hmem, _⟩ := firstBad_mem ok _ p h
  have hne : (windowOf now s.uploadedImages).isEmpty = false := by
    rcases he : (windowOf now s.uploadedImages).isEmpty with hf | ht
    · rfl
    · rw [List.isEmpty_iff.mp he] at hmem
      simp at hmem
  refine ⟨h1, ?_⟩
  unfold create_dynamic_collage
  rw [hne, h2]
  simp

theorem sched_dead (nowC nowP : Int) (ok : List Char → Bool) (saveOk : Bool)
    (mid : List ImageRec) (st : SchedState) (h : st.alive = false) :
    schedulerStep nowC nowP ok saveOk mid st = st := by
  simp [schedulerStep, h]

theorem sched_err (nowC nowP : Int) (ok : List Char → Bool) (saveOk : Bool)
    (mid : List ImageRec) (st : SchedState) (e : CycleError)
    (halive : st.alive = true)
    (hc : create_dynamic_collage nowC ok saveOk st.app = .error e) :
    schedulerStep nowC nowP ok saveOk mid st = { st with alive := false } := by
  simp [schedulerStep, halive, hc]

theorem sched_ok (nowC nowP : Int) (ok : List Char → Bool) (saveOk : Bool)
    (mid : List ImageRec) (st : SchedState) (a : AppState) (ev : CollageEvent)
    (pl : List (List Char × Rect)) (halive : st.alive = true)
    (hc : create_dynamic_collage nowC ok saveOk st.app = .ok (a, ev, pl)) :
    schedulerStep nowC nowP ok saveOk mid st =
      ⟨{ a with uploadedImages := pruneStore nowP (a.uploadedImages ++ mid) },
       true, st.collageLog ++ [(ev, pl)]⟩ := by
  simp [schedulerStep, halive, hc]

/-! The claim theorems. -/

/-- C5: for every ordered image list with count at least 4, the layout is a
square grid with gridSize = ceil(sqrt(count)) cells per side, cell width
A4_W / gridSize and height A4_H / gridSize by integer division, images
placed row-major in arrival order starting at cell (0,0), every image
receiving a cell because the count never exceeds gridSize squared. -/
theorem claim5_grid_layout : ∀ n : Nat, 4 ≤ n →
    layoutRects n = (List.range n).map (gridCell (gridSize n)) ∧
    (layoutRects n).length = n ∧
    n ≤ gridSize n * gridSize n ∧
    gridSize n = (if Nat.sqrt n * Nat.sqrt n = n then Nat.sqrt n else Nat.sqrt n + 1) ∧
    (∀ i : Nat, gridCell (gridSize n) i =
      ⟨(i % gridSize n) * (A4_W / gridSize n), (i / gridSize n) * (A4_H / gridSize n),
       A4_W / gridSize n, A4_H / gridSize n⟩) := by
  intro n h4
  obtain ⟨m, rfl⟩ : ∃ m, n = m + 4 := ⟨n - 4, by omega⟩
  exact ⟨layoutRects_grid m, layoutRects_length _, le_gridSize_sq _,
    gridSize_eq_ceil _, fun i => rfl⟩

/-- C5 witness: the count-5 instance of the grid layout claim. gridSize 5
is 3; the cells are 826 by 1169 pixels (floor(2480/3) by floor(3508/3));
the fifth image goes to row 1, column 1. -/
theorem claim5_grid_layout_witness :
    (4 ≤ 5 ∧ gridSize 5 = 3 ∧ A4_W / gridSize 5 = 826 ∧ A4_H / gridSize 5 = 1169) ∧
    layoutRects 5 = (List.range 5).map (gridCell (gridSize 5)) ∧
    (layoutRects 5).length = 5 ∧
    5 ≤ gridSize 5 * gridSize 5 ∧
    gridCell (gridSize 5) 4 =
      ⟨(4 % gridSize 5) * (A4_W / gridSize 5), (4 / gridSize 5) * (A4_H / gridSize 5),
       A4_W / gridSize 5, A4_H / gridSize 5⟩ :=
  ⟨⟨by decide, by decide, by decide, by decide⟩,
   (claim5_grid_layout 5 (by decide)).1,
   (claim5_grid_layout 5 (by decide)).2.1,
   (claim5_grid_layout 5 (by decide)).2.2.1,
   (claim5_grid_layout 5 (by decide)).2.2.2.2 4⟩

/-- C10: in every layout branch the placement rectangles are pairwise
disjoint and each lies entirely within the 2480 by 3508 canvas. -/
theorem claim10_rects_disjoint_in_canvas : ∀ n : Nat,
    (∀ r ∈ layoutRects n, r.x + r.w ≤ A4_W ∧ r.y + r.h ≤ A4_H) ∧
    (layoutRects n).Pairwise RectDisjoint := by
  intro n
  obtain _ | _ | _ | _ | m := n
  · exact ⟨fun r hr => by simp [layoutRects] at hr, by simp [layoutRects]⟩
  · refine ⟨fun r hr => ?_, ?_⟩
    · rw [show layoutRects 1 = [⟨0, 0, A4_W, A4_H⟩] from rfl] at hr
      simp at hr
      subst hr
      exact ⟨by decide, by decide⟩
    · rw [show layoutRects 1 = [⟨0, 0, A4_W, A4_H⟩] from rfl]
      exact List.pairwise_singleton _ _
  · refine ⟨fun r hr => ?_, ?_⟩
    · rw [show layoutRects 2 =
        [⟨0, 0, A4_W / 2, A4_H⟩, ⟨A4_W / 2, 0, A4_W - A4_W / 2, A4_H⟩] from rfl] at hr
      simp at hr
      rcases hr with rfl | rfl
      · exact ⟨by decide, by decide⟩
      · exact ⟨by decide, by decide⟩
    · rw [show layoutRects 2 =
        [⟨0, 0, A4_W / 2, A4_H⟩, ⟨A4_W / 2, 0, A4_W - A4_W / 2, A4_H⟩] from rfl]
      refine List.Pairwise.cons (fun r' hr' => ?_) (List.pairwise_singleton _ _)
      simp at hr'
      subst hr'
      exact disjoint_of_x_le _ _ (by decide)
  · refine ⟨fun r hr => ?_, ?_⟩
    · rw [show layoutRects 3 =
        [⟨0, 0, A4_W / 2, A4_H * 2 / 3⟩,
         ⟨A4_W / 2, 0, A4_W - A4_W / 2, A4_H * 2 / 3⟩,
         ⟨0, A4_H * 2 / 3, A4_W, A4_H - A4_H * 2 / 3⟩] from rfl] at hr
      simp at hr
      rcases hr with rfl | rfl | rfl
      · exact ⟨by decide, by decide⟩
      · exact ⟨by decide, by decide⟩
      · exact ⟨by decide, by decide⟩
    · rw [show layoutRects 3 =
        [⟨0, 0, A4_W / 2, A4_H * 2 / 3⟩,
         ⟨A4_W / 2, 0, A4_W - A4_W / 2, A4_H * 2 / 3⟩,
         ⟨0, A4_H * 2 / 3, A4_W, A4_H - A4_H * 2 / 3⟩] from rfl]
      refine List.Pairwise.cons (fun r' hr' => ?_)
        (List.Pairwise.cons (fun r' hr' => ?_) (List.pairwise_singleton _ _))
      · simp at hr'
        rcases hr' with rfl | rfl
        · exact disjoint_of_x_le _ _ (by decide)
        · exact disjoint_of_y_le _ _ (by decide)
      · simp at hr'
        subst hr'
        exact disjoint_of_y_le _ _ (by decide)
  · rw [show m + 1 + 1 + 1 + 1 = m + 4 from rfl, layoutRects_grid]
    have hg : 0 < gridSize (m + 4) := gridSize_pos _ (by omega)
    refine ⟨fun r hr => ?_, ?_⟩
    · rw [List.mem_map] at hr
      obtain ⟨i, hi, rfl⟩ := hr
      rw [List.mem_range] at hi
      have hi2 : i < gridSize (m + 4) * gridSize (m + 4) :=
        Nat.lt_of_lt_of_le hi (le_gridSize_sq _)
      have hrow : i / gridSize (m + 4) + 1 ≤ gridSize (m + 4) := by
        have := (Nat.div_lt_iff_lt_mul hg).mpr (by rw [Nat.mul_comm] at hi2; exact hi2)
        omega
      simp only [gridCell]
      constructor
      · have h1 : i % gridSize (m + 4) + 1 ≤ gridSize (m + 4) := Nat.mod_lt i hg
        calc (i % gridSize (m + 4)) * (A4_W / gridSize (m + 4)) + A4_W / gridSize (m + 4)
            = (i % gridSize (m + 4) + 1) * (A4_W / gridSize (m + 4)) := by ring
          _ ≤ gridSize (m + 4) * (A4_W / gridSize (m + 4)) := Nat.mul_le_mul_right _ h1
          _ = (A4_W / gridSize (m + 4)) * gridSize (m + 4) := by ring
          _ ≤ A4_W := Nat.div_mul_le_self _ _
      · calc (i / gridSize (m + 4)) * (A4_H / gridSize (m + 4)) + A4_H / gridSize (m + 4)
            = (i / gridSize (m + 4) + 1) * (A4_H / gridSize (m + 4)) := by ring
          _ ≤ gridSize (m + 4) * (A4_H / gridSize (m + 4)) := Nat.mul_le_mul_right _ hrow
          _ = (A4_H / gridSize (m + 4)) * gridSize (m + 4) := by ring
          _ ≤ A4_H := Nat.div_mul_le_self _ _
    · rw [List.pairwise_map]
      exact (List.pairwise_lt_range _).imp (fun h => gridCell_disjoint _ _ _ (Nat.ne_of_lt h))

/-- C10 witness: the two-image layout instantiation of the canvas-bound and
disjointness claim: the left column stays inside the canvas and the two
columns of the count-2 layout share no pixel. -/
theorem claim10_rects_disjoint_in_canvas_witness :
    ((⟨0, 0, A4_W / 2, A4_H⟩ : Rect).x + (⟨0, 0, A4_W / 2, A4_H⟩ : Rect).w ≤ A4_W ∧
     (⟨0, 0, A4_W / 2, A4_H⟩ : Rect).y + (⟨0, 0, A4_W / 2, A4_H⟩ : Rect).h ≤ A4_H) ∧
    (layoutRects 2).Pairwise RectDisjoint :=
  ⟨(claim10_rects_disjoint_in_canvas 2).1 ⟨0, 0, A4_W / 2, A4_H⟩ (by decide),
   (claim10_rects_disjoint_in_canvas 2).2⟩

/-- C6: pruning at the same instant as a windowed read leaves the store
holding exactly the entries the window returned, in insertion order:
the prune result is a sublist of the store equal to the window. -/
theorem claim6_window_then_prune : ∀ (now : Int) (imgs : List ImageRec),
    pruneStore now imgs = windowOf now imgs ∧
    (pruneStore now imgs).Sublist imgs ∧
    ∀ img, img ∈ pruneStore now imgs ↔ img ∈ windowOf now imgs := by
  intro now imgs
  exact ⟨rfl, List.filter_sublist _, fun img => Iff.rfl⟩

/-- C9: the initial_state answer for a new subscriber lists the ids
(stored basenames) of all tracked images, carries the most recent collage
file (none before the first cycle), and reports
max(0, interval - (now - lastCollageTime)) remaining seconds. -/
theorem claim9_initial_state : ∀ (now t0 : Int) (s : AppState),
    (handle_connect now s).uploaded_images =
      s.uploadedImages.map (fun i => basename i.path) ∧
    (handle_connect now s).recent_collage = s.recentCollage ∧
    (handle_connect now s).remaining_time =
      max 0 (COLLAGE_INTERVAL - (now - s.lastCollageTime)) ∧
    0 ≤ (handle_connect now s).remaining_time ∧
    (handle_connect now (initialAppState t0)).recent_collage = none ∧
    ∀ b, b ∈ (handle_connect now s).uploaded_images ↔
      ∃ i ∈ s.uploadedImages, basename i.path = b := by
  intro now t0 s
  refine ⟨rfl, rfl, rfl, le_max_left _ _, rfl, fun b => ?_⟩
  simp [handle_connect, List.mem_map]

/-- C4 counterexample: with the process starting at time 0 and every cycle
taking 10 seconds (well under the 60-second interval), the second cycle
starts at 130, not at 60 + 60 = 120: the gap between consecutive tick
starts is not the interval even though no cycle overruns, because the
loop sleeps a full interval after each cycle ends. -/
theorem claim4_counterexample :
    (0 : Int) ≤ 10 ∧ (10 : Int) ≤ COLLAGE_INTERVAL ∧
    tickTimes 0 (fun _ => 10) 0 = 60 ∧
    tickTimes 0 (fun _ => 10) 1 = 130 ∧
    tickTimes 0 (fun _ => 10) 1 - tickTimes 0 (fun _ => 10) 0 ≠ COLLAGE_INTERVAL := by
  refine ⟨by decide, by decide, by decide, by decide, by decide⟩

/-- C4 (amended): the scheduler sleeps a full interval after each cycle
completes, so consecutive cycle starts are separated by the interval plus
the duration of the previous cycle; the separation is therefore never below
the interval (no backlog), but it is measured from the end of the
previous cycle, not from its start. -/
theorem claim4_tick_spacing : ∀ (start : Int) (d : Nat → Int) (n : Nat),
    tickTimes start d (n + 1) = tickTimes start d n + d n + COLLAGE_INTERVAL ∧
    (0 ≤ d n → COLLAGE_INTERVAL ≤ tickTimes start d (n + 1) - tickTimes start d n) := by
  intro start d n
  refine ⟨rfl, fun h => ?_⟩
  have he : tickTimes start d (n + 1) = tickTimes start d n + d n + COLLAGE_INTERVAL := rfl
  unfold COLLAGE_INTERVAL at *
  omega

/-- C4 witness: the tick-spacing theorem evaluated at start 0 with every
cycle lasting 10 seconds. -/
theorem claim4_tick_spacing_witness :
    tickTimes 0 (fun _ => 10) 1 = tickTimes 0 (fun _ => 10) 0 + 10 + COLLAGE_INTERVAL ∧
    COLLAGE_INTERVAL ≤ tickTimes 0 (fun _ => 10) 1 - tickTimes 0 (fun _ => 10) 0 :=
  ⟨(claim4_tick_spacing 0 (fun _ => 10) 0).1,
   (claim4_tick_spacing 0 (fun _ => 10) 0).2 (by decide)⟩

/-- C8: an upload whose filename has no extension, or whose extension
(the part after the last dot, lowercased) is not an allowed one, is
rejected with a client-visible error and the store is left unchanged. -/
theorem claim8_bad_extension_rejected :
    ∀ (hasPart : Bool) (origName storedName : List Char) (now : Int)
      (store : List ImageRec),
    (extAfterLastDot origName = none ∨
      ∃ e, extAfterLastDot origName = some e ∧
        ALLOWED_EXTENSIONS.contains (e.map Char.toLower) = false) →
    (upload_file hasPart origName storedName now store).2 = store ∧
    ∀ fn, (upload_file hasPart origName storedName now store).1 ≠
      UploadResponse.uploaded fn := by
  intro hasPart origName storedName now store h
  have hal : allowed_file origName = false := by
    rcases h with h | ⟨e, he, hc⟩
    · simp [allowed_file, h]
    · simp only [allowed_file, he]
      exact hc
  unfold upload_file
  rcases hasPart with hf | ht
  · exact ⟨rfl, fun fn hcon => UploadResponse.noConfusion hcon⟩
  · by_cases hemp : origName = []
    · simp only [hemp]
      exact ⟨by simp, fun fn => by simp⟩
    · simp only [hemp, hal]
      refine ⟨by simp, fun fn => by simp⟩

/-- C8 witness: a .txt upload is rejected and leaves an empty store
empty. -/
theorem claim8_bad_extension_rejected_witness :
    (upload_file true ("doc.txt".toList) ("u.txt".toList) 0 []).2 = [] ∧
    (upload_file true ("doc.txt".toList) ("u.txt".toList) 0 []).1 ≠
      UploadResponse.uploaded ("u.txt".toList) :=
  have h := claim8_bad_extension_rejected true ("doc.txt".toList) ("u.txt".toList) 0 []
    (Or.inr ⟨"txt".toList, by decide, by decide⟩)
  ⟨h.1, h.2 ("u.txt".toList)⟩

/-- C1 counterexample: with three images in the window and the second one
unreadable, create_dynamic_collage raises the decode exception instead of
producing a collage (no event, no persisted file), and the scheduler
iteration that called it dies: the cycle is aborted, contradicting the
claim that composition continues with the bad cell left blank. -/
theorem claim1_counterexample :
    errorOf (create_dynamic_collage 0 (okExcept ("uploads/b.png".toList)) true stThree.app) =
      some (.decodeFailure ("uploads/b.png".toList)) ∧
    eventOf (create_dynamic_collage 0 (okExcept ("uploads/b.png".toList)) true stThree.app) =
      none ∧
    schedulerStep 0 0 (okExcept ("uploads/b.png".toList)) true [] stThree =
      { stThree with alive := false } := by
  refine ⟨by decide, by decide, by decide⟩

/-- C1 (amended): when any image of the window fails to decode, the
Image.open exception propagates: the cycle produces no collage at all,
the store and the two globals are untouched, no event is emitted, and
the scheduler thread terminates. -/
theorem claim1_decode_failure_aborts :
    ∀ (nowC nowP : Int) (ok : List Char → Bool) (saveOk : Bool)
      (mid : List ImageRec) (st : SchedState) (p : List Char),
    st.alive = true →
    firstBad ok (windowOf nowC st.app.uploadedImages) = some p →
    ok p = false ∧
    create_dynamic_collage nowC ok saveOk st.app = .error (.decodeFailure p) ∧
    schedulerStep nowC nowP ok saveOk mid st = { st with alive := false } := by
  intro nowC nowP ok saveOk mid st p halive hbad
  obtain ⟨h1, h2⟩ := create_decode_fails nowC ok saveOk st.app p hbad
  exact ⟨h1, h2, sched_err nowC nowP ok saveOk mid st _ halive h2⟩

/-- C1 witness: the amended decode-failure claim at the concrete
three-image state whose second image is unreadable. -/
theorem claim1_decode_failure_aborts_witness :
    okExcept ("uploads/b.png".toList) ("uploads/b.png".toList) = false ∧
    create_dynamic_collage 0 (okExcept ("uploads/b.png".toList)) true stThree.app =
      .error (.decodeFailure ("uploads/b.png".toList)) ∧
    schedulerStep 0 0 (okExcept ("uploads/b.png".toList)) true [] stThree =
      { stThree with alive := false } :=
  claim1_decode_failure_aborts 0 0 (okExcept ("uploads/b.png".toList)) true [] stThree
    ("uploads/b.png".toList) rfl (by decide)

/-- C2 counterexample: a persistence failure at the tick at time 10 leaves
the store unchanged as claimed, but the scheduler does not resume at the
next tick: the loop thread is dead, and the later step at time 70 with
storage healthy again changes nothing and logs no collage. -/
theorem claim2_counterexample :
    (schedulerStep 10 10 okAll false [] stOne).app = stOne.app ∧
    (schedulerStep 10 10 okAll false [] stOne).collageLog = [] ∧
    (schedulerStep 10 10 okAll false [] stOne).alive = false ∧
    schedulerStep 70 70 okAll true [] (schedulerStep 10 10 okAll false [] stOne) =
      schedulerStep 10 10 okAll false [] stOne := by
  refine ⟨by decide, by decide, by decide, by decide⟩

/-- C2 (amended): a persistence failure aborts the cycle with the Image
Store state unchanged: no prune is applied, the most-recent-collage and
last-collage-time globals keep their values, and no collage event is
emitted; but the uncaught exception kills the scheduler thread, so the
scheduler does not resume at the next tick: every later step leaves the
dead state untouched. -/
theorem claim2_save_failure_aborts :
    ∀ (nowC nowP : Int) (ok : List Char → Bool) (mid : List ImageRec) (st : SchedState),
    st.alive = true →
    (∀ img ∈ windowOf nowC st.app.uploadedImages, ok img.path = true) →
    create_dynamic_collage nowC ok false st.app = .error .saveFailure ∧
    schedulerStep nowC nowP ok false mid st = { st with alive := false } ∧
    ∀ (nC nP : Int) (ok2 : List Char → Bool) (sOk2 : Bool) (mid2 : List ImageRec),
      schedulerStep nC nP ok2 sOk2 mid2 { st with alive := false } =
        { st with alive := false } := by
  intro nowC nowP ok mid st halive hok
  have hc := create_save_fails nowC ok st.app hok
  refine ⟨hc, sched_err nowC nowP ok false mid st _ halive hc,
    fun nC nP ok2 sOk2 mid2 => sched_dead nC nP ok2 sOk2 mid2 _ rfl⟩

/-- C2 witness: the amended persistence-failure claim at the concrete
one-image state, with the dead-scheduler conclusion evaluated at the
parameters of the next tick. -/
theorem claim2_save_failure_aborts_witness :
    create_dynamic_collage 10 okAll false stOne.app = .error .saveFailure ∧
    schedulerStep 10 10 okAll false [] stOne = { stOne with alive := false } ∧
    schedulerStep 70 70 okAll true [] { stOne with alive := false } =
      { stOne with alive := false } :=
  have h := claim2_save_failure_aborts 10 10 okAll [] stOne rfl (by decide)
  ⟨h.1, h.2.1, h.2.2 70 70 okAll true []⟩

/-- C3 counterexample: at a tick whose window is empty while the store
still holds a stale entry, the emitted event carries the empty list, not
the ids of the entire store contents: the store id list is nonempty and
differs from the payload. -/
theorem claim3_counterexample :
    eventOf (create_dynamic_collage 100 okAll true sOld) =
      some ⟨collageFilename 100, []⟩ ∧
    sOld.uploadedImages.map (fun i => basename i.path) = ["old.png".toList] ∧
    (["old.png".toList] : List (List Char)) ≠ [] := by
  refine ⟨by decide, by decide, by decide⟩

/-- C3 (amended): the event of a completed cycle carries the new collage
filename, and the filename is also committed as the most recent collage;
the id payload is the basenames of the entire store contents when the
window is nonempty, but the hard-coded empty list when the window is
empty. -/
theorem claim3_event_payload :
    ∀ (now : Int) (ok : List Char → Bool) (s : AppState),
    (∀ img ∈ windowOf now s.uploadedImages, ok img.path = true) →
    eventOf (create_dynamic_collage now ok true s) =
      some ⟨collageFilename now,
        if (windowOf now s.uploadedImages).isEmpty then []
        else s.uploadedImages.map (fun i => basename i.path)⟩ ∧
    stateOf (create_dynamic_collage now ok true s) =
      some { s with lastCollageTime := now,
                    recentCollage := some (collageFilename now) } := by
  intro now ok s hok
  rw [create_ok now ok s hok]
  exact ⟨rfl, rfl⟩

/-- C3 witness: the amended event-payload claim at the concrete one-image
state, where the window is nonempty. -/
theorem claim3_event_payload_witness :
    eventOf (create_dynamic_collage 0 okAll true stOne.app) =
      some ⟨collageFilename 0,
        if (windowOf 0 stOne.app.uploadedImages).isEmpty then []
        else stOne.app.uploadedImages.map (fun i => basename i.path)⟩ ∧
    stateOf (create_dynamic_collage 0 okAll true stOne.app) =
      some { stOne.app with lastCollageTime := 0,
                            recentCollage := some (collageFilename 0) } :=
  claim3_event_payload 0 okAll stOne.app (by decide)

/-- C7 counterexample: an image whose age is exactly the interval at the
second tick is a placed source of two consecutive cycles. The entry with
timestamp 60 is in the window of the tick at 60 (age 0), survives the
prune at 60, and is in the window of the tick at 120 again (age exactly
60, and the window test is inclusive): both logged collages list it as
their placed source, so an append is counted in two different cycles. -/
theorem claim7_counterexample :
    (schedulerStep 120 120 okAll true [] (schedulerStep 60 60 okAll true [] stBound)).collageLog.map
        (fun e => e.2.map Prod.fst) =
      [["uploads/a.png".toList], ["uploads/a.png".toList]] ∧
    windowOf 60 stBound.app.uploadedImages = [imgBound] ∧
    windowOf 120 (schedulerStep 60 60 okAll true [] stBound).app.uploadedImages =
      [imgBound] := by
  refine ⟨by decide, by decide, by decide⟩

/-- C7 (amended): the placed sources of a cycle are exactly the window read at
composition time; an append that lands between the window read and the
prune survives the prune when its age at prune time is within the
interval, so it is visible to the next tick rather than lost; and no
image is counted in two cycles provided the later tick is strictly more
than an interval after the earlier one and timestamps do not lie in the
future — only at the exact inclusive boundary (consecutive ticks exactly
one interval apart) can an image be placed twice. -/
theorem claim7_window_sources :
    (∀ (now : Int) (ok : List Char → Bool) (s : AppState),
      (∀ img ∈ windowOf now s.uploadedImages, ok img.path = true) →
      (placementsOf (create_dynamic_collage now ok true s)).map
          (fun pl => pl.map Prod.fst) =
        some ((windowOf now s.uploadedImages).map ImageRec.path)) ∧
    (∀ (nowC nowP : Int) (ok : List Char → Bool) (mid : List ImageRec)
       (st : SchedState) (a : ImageRec),
      st.alive = true →
      (∀ img ∈ windowOf nowC st.app.uploadedImages, ok img.path = true) →
      a ∈ mid → nowP - a.timestamp ≤ COLLAGE_INTERVAL →
      a ∈ (schedulerStep nowC nowP ok true mid st).app.uploadedImages) ∧
    (∀ (l : List ImageRec) (now1 now2 : Int) (img : ImageRec),
      img.timestamp ≤ now1 → now1 + COLLAGE_INTERVAL < now2 →
      img ∉ windowOf now2 l) := by
  refine ⟨fun now ok s hok => ?_, fun nowC nowP ok mid st a halive hok hmem hfresh => ?_,
    fun l now1 now2 img ht hgap hmem => ?_⟩
  · rw [create_ok now ok s hok]
    simp only [placementsOf, Option.map_some']
    congr 1
    apply List.map_fst_zip
    rw [List.length_map, layoutRects_length]
  · rw [sched_ok nowC nowP ok true mid st _ _ _ halive (create_ok nowC ok st.app hok)]
    simp only [pruneStore, List.mem_filter, List.mem_append]
    exact ⟨Or.inr hmem, by simpa using hfresh⟩
  · rw [windowOf, List.mem_filter] at hmem
    obtain ⟨_, hd⟩ := hmem
    rw [decide_eq_true_eq] at hd
    unfold COLLAGE_INTERVAL at *
    omega

/-- C7 witness: the three conjuncts of the amended claim evaluated at
concrete inputs: the one-image window at time 0, a mid-cycle append with
timestamp 5 pruned at time 5, and a timestamp-0 image absent from a
window read at time 61. -/
theorem claim7_window_sources_witness :
    ((placementsOf (create_dynamic_collage 0 okAll true stOne.app)).map
        (fun pl => pl.map Prod.fst) =
      some ((windowOf 0 stOne.app.uploadedImages).map ImageRec.path)) ∧
    (⟨"uploads/m.png".toList, 5⟩ : ImageRec) ∈
      (schedulerStep 0 5 okAll true [⟨"uploads/m.png".toList, 5⟩] stOne).app.uploadedImages ∧
    (⟨"uploads/x.png".toList, 0⟩ : ImageRec) ∉
      windowOf 61 [⟨"uploads/x.png".toList, 0⟩] :=
  ⟨claim7_window_sources.1 0 okAll stOne.app (by decide),
   claim7_window_sources.2.1 0 5 okAll [⟨"uploads/m.png".toList, 5⟩] stOne
     ⟨"uploads/m.png".toList, 5⟩ rfl (by decide) (by decide) (by decide),
   claim7_window_sources.2.2 [⟨"uploads/x.png".toList, 0⟩] 0 61
     ⟨"uploads/x.png".toList, 0⟩ (by decide) (by decide)⟩
